import Mathlib

/-
Shallow embedding of express-elasticsearch-session (src/index.js).
The file src/index.js holds two variants of the module; the variant
embedded here is the one with expiry timers (ESStore with pSid, get, set,
destroy, initialSessionTimeout, sessionTimeout, touch), which is the
variant all claim line references point at.

Modelling conventions:
  - Epoch-millisecond times are Int; machine overflow is irrelevant at
    these magnitudes in JS (doubles are exact far beyond any realistic
    clock value), so no modular reduction is applied.
  - The elasticsearch client is an external collaborator: each network
    round trip is modelled by an explicit outcome parameter (an
    Option String error) plus the external index state, passed in and
    returned explicitly. The index is an association list from document
    id (storage key) to stored document.
  - Callbacks are pure return values: the argument tuple the code passes
    to cb is the operation result.
  - Node timers: an armed setTimeout is a TimerObj carrying a fresh
    numeric handle id, the map key it was registered under, the sid its
    closure will pass to destroy, and its absolute fire time
    (creation time + ttl). clearTimeout removes a handle from the armed
    set; the JS object this.timeouts is a separate association list from
    storage key to handle id, because clearTimeout does not delete object
    properties and a fired timer leaves its property behind.
  - A thrown JS exception is an Except.error.
-/

/-- Cookie substructure of a session document: cookie.expires (an instant,
modelled as epoch ms) and cookie.originalMaxAge (ms). -/
structure Cookie where
  expires : Option Int
  originalMaxAge : Int
deriving Repr, DecidableEq

/-- A session document: arbitrary payload fields, the timestamp field the
store injects on set (absent when never stamped), and the optional cookie
substructure used by touch. -/
structure Sess where
  data : List (String × String)
  timestamp : Option Int
  cookie : Option Cookie
deriving Repr, DecidableEq

/-- An armed Node timer created by setTimeout inside sessionTimeout:
handle id, the this.timeouts key it was registered under, the sid its
callback closure will pass to destroy, and its absolute fire time. -/
structure TimerObj where
  id : Nat
  key : String
  sid : String
  fireAt : Int
deriving Repr, DecidableEq

/-- Store configuration. Source defaults: ttl = 1000*60*60 and an empty
key prefix. host, index, typeName and logLevel only address the external
client and do not affect the modelled behaviour, so they are omitted.
The source calls the second field `prefix`; it is renamed here. -/
structure Options where
  ttl : Int
  pref : String
deriving Repr, DecidableEq

/-- Process state of one ESStore instance: configuration, the counter
producing fresh timer handles, the set of armed (not yet fired, not yet
cancelled) timers, and the JS object this.timeouts mapping storage key to
the handle id last stored under it. -/
structure ESStore where
  options : Options
  nextTimerId : Nat
  armed : List TimerObj
  timeouts : List (String × Nat)
deriving Repr, DecidableEq

/-- The external elasticsearch index: document id to document. -/
abbrev Index := List (String × Sess)

/-- Association list lookup by string key. -/
def alookup {α : Type} : List (String × α) → String → Option α
  | [], _ => none
  | (k, v) :: rest, key => if k = key then some v else alookup rest key

/-- Association list update: replace the binding of key, or append it. -/
def aset {α : Type} : List (String × α) → String → α → List (String × α)
  | [], key, v => [(key, v)]
  | (k, w) :: rest, key, v =>
      if k = key then (key, v) :: rest else (k, w) :: aset rest key v

/-- Association list removal of every binding of key. -/
def aerase {α : Type} (m : List (String × α)) (key : String) : List (String × α) :=
  m.filter (fun p => p.1 != key)

/-- Source line `return (this.options.prefix) + sid;`. -/
def ESStore.pSid (st : ESStore) (sid : String) : String :=
  st.options.pref ++ sid

/-- Source defaults block of the constructor. -/
def defaultOptions : Options :=
  { ttl := 1000 * 60 * 60, pref := "" }

/-- A freshly constructed store: no armed timers, empty timeouts object,
handle counter at zero. -/
def initStore (o : Options) : ESStore :=
  { options := o, nextTimerId := 0, armed := [], timeouts := [] }

/-- The pair of arguments the get callback is invoked with: cb() is both
fields none, cb(null, src) is err none and res some. -/
structure GetCbArgs where
  err : Option String
  res : Option Sess
deriving Repr, DecidableEq

/-- The JS test `new Date().getTime() - r._source.timestamp > this.options.ttl`.
When the document has no timestamp field the subtraction is NaN and the
comparison is false, so the document counts as not expired. -/
def jsExpired (now ttl : Int) : Option Int → Bool
  | none => false
  | some ts => decide (now - ts > ttl)

/-- Callback body of ESStore.prototype.get, over an arbitrary client
response (e, r): on any error, an undefined response, or an expired
timestamp it calls cb() with no arguments; otherwise cb(null, r._source). -/
def getCallback (ttl now : Int) (e : Option String) (r : Option Sess) : GetCbArgs :=
  if e.isSome then { err := none, res := none }
  else
    match r with
    | none => { err := none, res := none }
    | some src =>
        if jsExpired now ttl src.timestamp then { err := none, res := none }
        else { err := none, res := some src }

/-- ESStore.prototype.get wired to the modelled client: client.get on the
prefixed id either fails with fetchErr, or reports the document under that
id; a missing document surfaces as a client error (HTTP 404), and either
way r is undefined. The callback body then runs. -/
def ESStore.get (st : ESStore) (idx : Index) (sid : String) (now : Int)
    (fetchErr : Option String) : GetCbArgs :=
  match fetchErr with
  | some e => getCallback st.options.ttl now (some e) none
  | none =>
      match alookup idx (ESStore.pSid st sid) with
      | none => getCallback st.options.ttl now (some "NotFound") none
      | some src => getCallback st.options.ttl now none (some src)

/-- Result of ESStore.prototype.set: the store instance, the external
index, the caller session object after the call (the code mutates it in
place, so the mutated binding is threaded back), and the single argument
cb(e) receives. -/
structure SetResult where
  store : ESStore
  idx : Index
  sess : Sess
  cbErr : Option String
deriving Repr, DecidableEq

/-- ESStore.prototype.set: `sess.timestamp = new Date().getTime()` then
client.index (a full document replace) of the mutated object under the
prefixed id; the callback receives only the indexing error. putErr is the
nondeterministic outcome of the round trip; on failure the index is
unchanged. No timer-related state is read or written. -/
def ESStore.set (st : ESStore) (idx : Index) (sid : String) (sess : Sess)
    (now : Int) (putErr : Option String) : SetResult :=
  let stamped := { sess with timestamp := some now }
  match putErr with
  | some e => { store := st, idx := idx, sess := stamped, cbErr := some e }
  | none =>
      { store := st, idx := aset idx (ESStore.pSid st sid) stamped,
        sess := stamped, cbErr := none }

/-- Result of ESStore.prototype.destroy: store instance, external index,
and the error argument of cb(e, r). -/
structure DestroyResult where
  store : ESStore
  idx : Index
  cbErr : Option String
deriving Repr, DecidableEq

/-- ESStore.prototype.destroy: client.delete of the prefixed id, callback
receives the deletion outcome. The function does not touch this.timeouts
or any armed timer. -/
def ESStore.destroy (st : ESStore) (idx : Index) (sid : String)
    (delErr : Option String) : DestroyResult :=
  match delErr with
  | some e => { store := st, idx := idx, cbErr := some e }
  | none => { store := st, idx := aerase idx (ESStore.pSid st sid), cbErr := none }

/-- The clearTimeout conditional of sessionTimeout: when this.timeouts has
an entry for the key, the handle it holds is cancelled (dropped from the
armed set); otherwise nothing happens. -/
def clearTimeoutStep (timeouts : List (String × Nat)) (armed : List TimerObj)
    (key : String) : List TimerObj :=
  match alookup timeouts key with
  | some tid => armed.filter (fun tm => tm.id != tid)
  | none => armed

/-- ESStore.prototype.sessionTimeout: clearTimeout of the handle stored
under this.timeouts[pSid(sid)] when present, then
`this.timeouts[pSid(sid)] = setTimeout(function () { self.destroy(sid); }, ttl)`:
a fresh timer armed for now + ttl whose closure captures sid. -/
def ESStore.sessionTimeout (st : ESStore) (sid : String) (now : Int) : ESStore :=
  let key := ESStore.pSid st sid
  { st with
      armed := clearTimeoutStep st.timeouts st.armed key ++
        [{ id := st.nextTimerId, key := key, sid := sid,
           fireAt := now + st.options.ttl }],
      timeouts := aset st.timeouts key st.nextTimerId,
      nextTimerId := st.nextTimerId + 1 }

/-- Result of a timer firing: store instance and external index. -/
structure FireResult where
  store : ESStore
  idx : Index
deriving Repr, DecidableEq

/-- Firing of an armed setTimeout handle tid: a cancelled or already fired
handle does nothing; an armed one leaves the armed set and its closure
runs `self.destroy(sid)` (with no callback). The this.timeouts entry is
NOT deleted by the code, so it stays behind. delErr is the outcome of the
delete round trip issued by destroy. -/
def fireTimer (st : ESStore) (idx : Index) (tid : Nat)
    (delErr : Option String) : FireResult :=
  match st.armed.find? (fun tm => tm.id == tid) with
  | none => { store := st, idx := idx }
  | some tm =>
      let st1 := { st with armed := st.armed.filter (fun x => x.id != tid) }
      let d := ESStore.destroy st1 idx tm.sid delErr
      { store := d.store, idx := d.idx }

/-- Result of ESStore.prototype.touch: store instance, external index, and
the error argument of cb(e, r). -/
structure TouchResult where
  store : ESStore
  idx : Index
  cbErr : Option String
deriving Repr, DecidableEq

/-- The painless script of touch,
`ctx._source.cookie.expires = Instant.ofEpochMilli(params.now).plusMillis(ctx._source.cookie.originalMaxAge).toString()`,
evaluated by the server against the stored document: none models the
script exception raised when the document has no cookie object. -/
def runUpdateScript (now : Int) (s : Sess) : Option Sess :=
  match s.cookie with
  | none => none
  | some c =>
      some { s with cookie := some { c with expires := some (now + c.originalMaxAge) } }

/-- ESStore.prototype.touch: first `this.sessionTimeout(sid)` (local timer
rescheduling, before the remote call and regardless of its outcome), then
client.update of the prefixed id with the expiry script; the callback
receives the update outcome. updErr is the transport outcome; a missing
document or a failing script also surface as callback errors. The sess
argument is accepted and ignored, exactly as in the source. -/
def ESStore.touch (st : ESStore) (idx : Index) (sid : String) (sess : Sess)
    (now : Int) (updErr : Option String) : TouchResult :=
  let st1 := ESStore.sessionTimeout st sid now
  let key := ESStore.pSid st sid
  let upd : Index × Option String :=
    match updErr with
    | some e => (idx, some e)
    | none =>
        match alookup idx key with
        | none => (idx, some "document_missing_exception")
        | some doc =>
            match runUpdateScript now doc with
            | none => (idx, some "script_exception")
            | some doc2 => (aset idx key doc2, none)
  { store := st1, idx := upd.1, cbErr := upd.2 }

/-- The search response as the recovery callback reads it: r.hits.hits is
the list of hit documents, of which only hit._id (the storage key) is
used because the search sets _source to false. -/
structure SearchResp where
  hitsHits : Option (List String)
deriving Repr, DecidableEq

/-- ESStore.prototype.initialSessionTimeout: `this.timeouts = {}` runs
synchronously, then client.search match_all invokes the callback with
(e, r). The callback logs e when set and then unconditionally reads
r.hits, so an undefined response makes it throw a TypeError (modelled as
Except.error); otherwise it calls sessionTimeout(hit._id) for every hit,
passing the full storage key where sessionTimeout expects a logical sid. -/
def ESStore.initialSessionTimeout (st : ESStore) (e : Option String)
    (r : Option SearchResp) (now : Int) : Except String ESStore :=
  let st0 := { st with timeouts := [] }
  match r with
  | none => Except.error "TypeError: Cannot read hits of undefined"
  | some resp =>
      match resp.hitsHits with
      | none => Except.ok st0
      | some hs => Except.ok (hs.foldl (fun s hid => ESStore.sessionTimeout s hid now) st0)

/-- The armed timers registered under one storage key. -/
def timersFor (st : ESStore) (k : String) : List TimerObj :=
  st.armed.filter (fun tm => tm.key == k)

/-- Reachable-state invariant of the timer machinery: every armed timer is
the one its this.timeouts entry points at, armed handle ids are below the
fresh counter, and handle ids are pairwise distinct. -/
def TimerInv (st : ESStore) : Prop :=
  (∀ tm ∈ st.armed, alookup st.timeouts tm.key = some tm.id) ∧
  (∀ tm ∈ st.armed, tm.id < st.nextTimerId) ∧
  (st.armed.map (fun tm => tm.id)).Nodup

/-- Concrete configuration with ttl 1000 and empty key prefix. -/
def optsA : Options := { ttl := 1000, pref := "" }

/-- Fresh store over optsA. -/
def stA : ESStore := initStore optsA

/-- Concrete configuration with ttl 1000 and key prefix "p". -/
def optsP : Options := { ttl := 1000, pref := "p" }

/-- Fresh store over optsP. -/
def stP : ESStore := initStore optsP

/-- A sample session document without timestamp or cookie. -/
def sessU : Sess := { data := [("user", "1")], timestamp := none, cookie := none }

/-- A sample stamped session document. -/
def sessT : Sess := { data := [("user", "1")], timestamp := some 0, cookie := none }

/-- A sample cookie. -/
def cookie0 : Cookie := { expires := some 900, originalMaxAge := 900 }

/-- A sample session document carrying a cookie. -/
def sessC : Sess := { data := [("user", "1")], timestamp := some 0, cookie := some cookie0 }

/-- A sample session document whose caller already placed a timestamp. -/
def sessPre : Sess := { data := [("user", "1")], timestamp := some 999, cookie := none }

/-- The store state produced by the recovery scan of claim C6. -/
def stRec : ESStore :=
  { options := optsP, nextTimerId := 1,
    armed := [{ id := 0, key := "ppa", sid := "pa", fireAt := 1000 }],
    timeouts := [("ppa", 0)] }

/-- The store state with one armed timer for key "b", used as a witness
state. -/
def stB : ESStore := ESStore.sessionTimeout stA "b" 0

/-- The armed timer of stB. -/
def tmB : TimerObj := { id := 0, key := "b", sid := "b", fireAt := 1000 }

/-- Lookup after updating the same key. -/
theorem alookup_aset_self {α : Type} (m : List (String × α)) (k : String) (v : α) :
    alookup (aset m k v) k = some v := by
  induction m with
  | nil => simp [aset, alookup]
  | cons p rest ih =>
      obtain ⟨k1, v1⟩ := p
      by_cases h : k1 = k
      · simp [aset, h, alookup]
      · simp [aset, h, alookup, ih]

/-- Lookup after updating a different key. -/
theorem alookup_aset_ne {α : Type} (m : List (String × α)) (k k2 : String) (v : α)
    (h : k2 ≠ k) : alookup (aset m k v) k2 = alookup m k2 := by
  induction m with
  | nil =>
      simp only [aset, alookup]
      rw [if_neg (fun hh => h hh.symm)]
  | cons p rest ih =>
      obtain ⟨k1, v1⟩ := p
      by_cases h1 : k1 = k
      · subst h1
        simp only [aset, if_pos rfl, alookup]
        rw [if_neg (fun hh => h hh.symm), if_neg (fun hh => h hh.symm)]
      · simp only [aset, if_neg h1, alookup]
        by_cases h2 : k1 = k2
        · rw [if_pos h2, if_pos h2]
        · rw [if_neg h2, if_neg h2, ih]

/-- A duplicate-free list whose members all equal one value has at most
one member. -/
theorem length_le_one_of_nodup_const {α : Type} (l : List α) (c : α)
    (hn : l.Nodup) (h : ∀ x ∈ l, x = c) : l.length ≤ 1 := by
  match l with
  | [] => simp
  | [a] => simp
  | a :: b :: rest =>
      exfalso
      have ha := h a (by simp)
      have hb := h b (by simp)
      rw [List.nodup_cons] at hn
      exact hn.1 (by rw [ha, ← hb]; exact List.mem_cons_self b rest)

/-- The clearTimeout step only drops timers. -/
theorem clearTimeoutStep_sublist (timeouts : List (String × Nat))
    (armed : List TimerObj) (key : String) :
    (clearTimeoutStep timeouts armed key).Sublist armed := by
  unfold clearTimeoutStep
  cases alookup timeouts key with
  | none => exact List.Sublist.refl armed
  | some tid => exact List.filter_sublist armed

/-- Under the map-consistency half of the invariant, the clearTimeout step
leaves no armed timer registered under the cleared key. -/
theorem clearTimeoutStep_no_key (timeouts : List (String × Nat))
    (armed : List TimerObj) (key : String)
    (h1 : ∀ tm ∈ armed, alookup timeouts tm.key = some tm.id) :
    ∀ tm ∈ clearTimeoutStep timeouts armed key, tm.key ≠ key := by
  intro tm hm hk
  subst hk
  unfold clearTimeoutStep at hm
  cases hl : alookup timeouts tm.key with
  | none =>
      rw [hl] at hm
      have := h1 tm hm
      rw [this] at hl
      cases hl
  | some tid =>
      rw [hl] at hm
      have hmem := List.mem_filter.mp hm
      have heq := h1 tm hmem.1
      rw [hl] at heq
      have : tid = tm.id := by
        cases heq
        rfl
      have hne := hmem.2
      rw [this] at hne
      simp at hne

/-- Under the invariant, at most one armed timer exists per storage key. -/
theorem atMostOne_of_TimerInv (st : ESStore) (h : TimerInv st) (k : String) :
    (timersFor st k).length ≤ 1 := by
  obtain ⟨h1, _, h3⟩ := h
  cases hl : alookup st.timeouts k with
  | none =>
      have hz : timersFor st k = [] := by
        apply List.filter_eq_nil_iff.mpr
        intro tm hm hp
        have hk : tm.key = k := by simpa using hp
        have := h1 tm hm
        rw [hk, hl] at this
        cases this
      simp [hz]
  | some tid =>
      have hnd : ((timersFor st k).map (fun tm => tm.id)).Nodup := by
        have hsub : (timersFor st k).Sublist st.armed := List.filter_sublist st.armed
        exact List.Nodup.sublist (List.Sublist.map (fun tm => tm.id) hsub) h3
      have hconst : ∀ x ∈ (timersFor st k).map (fun tm => tm.id), x = tid := by
        intro x hx
        obtain ⟨tm, hm, hxe⟩ := List.mem_map.mp hx
        have hmem := List.mem_filter.mp hm
        have hk : tm.key = k := by simpa using hmem.2
        have := h1 tm hmem.1
        rw [hk, hl] at this
        cases this
        exact hxe.symm
      have := length_le_one_of_nodup_const _ tid hnd hconst
      simpa using this

/-- After sessionTimeout, the cleared key holds exactly the fresh timer,
armed for now + ttl with the sid of the call. -/
theorem sessionTimeout_timersFor (st : ESStore) (h : TimerInv st) (sid : String)
    (now : Int) :
    timersFor (ESStore.sessionTimeout st sid now) (ESStore.pSid st sid) =
      [{ id := st.nextTimerId, key := ESStore.pSid st sid, sid := sid,
         fireAt := now + st.options.ttl }] := by
  obtain ⟨h1, _, _⟩ := h
  show (clearTimeoutStep st.timeouts st.armed (ESStore.pSid st sid) ++
      [({ id := st.nextTimerId, key := ESStore.pSid st sid, sid := sid,
          fireAt := now + st.options.ttl } : TimerObj)]).filter
      (fun tm => tm.key == ESStore.pSid st sid) = _
  rw [List.filter_append]
  have hz : (clearTimeoutStep st.timeouts st.armed (ESStore.pSid st sid)).filter
      (fun tm => tm.key == ESStore.pSid st sid) = [] := by
    apply List.filter_eq_nil_iff.mpr
    intro tm hm hp
    exact clearTimeoutStep_no_key st.timeouts st.armed (ESStore.pSid st sid) h1 tm hm
      (by simpa using hp)
  rw [hz]
  simp

/-- sessionTimeout preserves the timer invariant. -/
theorem sessionTimeout_TimerInv (st : ESStore) (h : TimerInv st) (sid : String)
    (now : Int) : TimerInv (ESStore.sessionTimeout st sid now) := by
  obtain ⟨h1, h2, h3⟩ := h
  have hsub := clearTimeoutStep_sublist st.timeouts st.armed (ESStore.pSid st sid)
  have hnokey := clearTimeoutStep_no_key st.timeouts st.armed (ESStore.pSid st sid) h1
  refine ⟨?_, ?_, ?_⟩
  · intro tm hm
    show alookup (aset st.timeouts (ESStore.pSid st sid) st.nextTimerId) tm.key = some tm.id
    rcases List.mem_append.mp hm with hleft | hright
    · have hmem : tm ∈ st.armed := hsub.subset hleft
      rw [alookup_aset_ne _ _ _ _ (hnokey tm hleft)]
      exact h1 tm hmem
    · have : tm =
          { id := st.nextTimerId, key := ESStore.pSid st sid, sid := sid,
            fireAt := now + st.options.ttl } := by simpa using hright
      subst this
      exact alookup_aset_self st.timeouts (ESStore.pSid st sid) st.nextTimerId
  · intro tm hm
    show tm.id < st.nextTimerId + 1
    rcases List.mem_append.mp hm with hleft | hright
    · exact Nat.lt_succ_of_lt (h2 tm (hsub.subset hleft))
    · have : tm =
          { id := st.nextTimerId, key := ESStore.pSid st sid, sid := sid,
            fireAt := now + st.options.ttl } := by simpa using hright
      subst this
      exact Nat.lt_succ_self _
  · show ((clearTimeoutStep st.timeouts st.armed (ESStore.pSid st sid) ++
        [({ id := st.nextTimerId, key := ESStore.pSid st sid, sid := sid,
            fireAt := now + st.options.ttl } : TimerObj)]).map (fun tm => tm.id)).Nodup
    rw [List.map_append, List.nodup_append]
    refine ⟨List.Nodup.sublist (List.Sublist.map _ hsub) h3, by simp, ?_⟩
    intro x hx hy
    obtain ⟨tm, hm, hxe⟩ := List.mem_map.mp hx
    have hlt : tm.id < st.nextTimerId := h2 tm (hsub.subset hm)
    have : x = st.nextTimerId := by simpa using hy
    rw [this] at hxe
    rw [hxe] at hlt
    exact Nat.lt_irrefl _ hlt

/-- A fresh store satisfies the timer invariant. -/
theorem TimerInv_initStore (o : Options) : TimerInv (initStore o) := by
  refine ⟨?_, ?_, ?_⟩
  · intro tm hm
    cases hm
  · intro tm hm
    cases hm
  · simp [initStore]

/-- C1: for every session id, the get callback reports absent (no error,
no session) exactly when the fetch failed for any reason, the response is
undefined, or the stored write timestamp is older than now minus TTL;
otherwise it reports the stored record source; and no error value is ever
passed to the callback. The expiry condition reads a missing timestamp
field as not expired, matching the JS NaN comparison. -/
theorem c1_get_absent_or_source (ttl now : Int) (e : Option String) (r : Option Sess) :
    (getCallback ttl now e r).err = none ∧
    ((getCallback ttl now e r).res = none ↔
      (e.isSome = true ∨ r = none ∨
        ∃ s, r = some s ∧ jsExpired now ttl s.timestamp = true)) ∧
    (∀ s, e = none → r = some s → jsExpired now ttl s.timestamp = false →
      (getCallback ttl now e r).res = some s) := by
  refine ⟨?_, ?_, ?_⟩
  · cases e with
    | some err => simp [getCallback]
    | none =>
        cases r with
        | none => simp [getCallback]
        | some s =>
            by_cases h : jsExpired now ttl s.timestamp <;> simp [getCallback, h]
  · cases e with
    | some err => simp [getCallback]
    | none =>
        cases r with
        | none => simp [getCallback]
        | some s =>
            by_cases h : jsExpired now ttl s.timestamp <;> simp [getCallback, h]
  · intro s he hr hexp
    subst he
    subst hr
    simp [getCallback, hexp]

/-- C1 witness: a fresh unexpired record is reported back. -/
theorem c1_witness : (getCallback 1000 500 none (some sessT)).res = some sessT :=
  (c1_get_absent_or_source 1000 500 none (some sessT)).2.2 sessT rfl rfl (by decide)

/-- C2 counterexample: the claim says set (re)schedules an expiry timer
for the written key, but ESStore.prototype.set never touches the timer
machinery: after a successful set on a fresh store there is no armed
timer at all and this.timeouts has no entry for the key. -/
theorem c2_counterexample :
    (ESStore.set stA [] "abc" sessU 0 none).store.armed = [] ∧
    alookup (ESStore.set stA [] "abc" sessU 0 none).store.timeouts "abc" = none := by
  exact ⟨rfl, rfl⟩

/-- C2 amended: set stamps the payload with the current write timestamp,
persists the stamped payload as a full replace under the prefixed storage
key, and the callback receives the outcome of the persistence step only;
but no expiry timer is scheduled or rescheduled by set, whose timer state
is returned unchanged. -/
theorem c2_set_stamps_and_persists (st : ESStore) (idx : Index) (sid : String)
    (sess : Sess) (now : Int) (e : Option String) :
    (ESStore.set st idx sid sess now e).store = st ∧
    (ESStore.set st idx sid sess now e).sess = { sess with timestamp := some now } ∧
    (ESStore.set st idx sid sess now e).cbErr = e ∧
    (e = none →
      (ESStore.set st idx sid sess now e).idx =
        aset idx (ESStore.pSid st sid) { sess with timestamp := some now }) ∧
    (∀ err, e = some err → (ESStore.set st idx sid sess now e).idx = idx) := by
  cases e with
  | none =>
      refine ⟨rfl, rfl, rfl, fun _ => rfl, ?_⟩
      intro err h
      simp at h
  | some err0 =>
      refine ⟨rfl, rfl, rfl, ?_, ?_⟩
      · intro h
        simp at h
      · intro err h
        rfl

/-- C2 witness: concrete instances of the amended set behaviour, on a
successful and on a failing round trip. -/
theorem c2_witness :
    (ESStore.set stA [] "abc" sessU 0 none).idx =
      aset [] (ESStore.pSid stA "abc") { sessU with timestamp := some 0 } ∧
    (ESStore.set stA [] "abc" sessU 0 (some "boom")).idx = [] :=
  ⟨(c2_set_stamps_and_persists stA [] "abc" sessU 0 none).2.2.2.1 rfl,
   (c2_set_stamps_and_persists stA [] "abc" sessU 0 (some "boom")).2.2.2.2 "boom" rfl⟩

/-- C10: set assigns the current epoch-millisecond time to the timestamp
field of the caller session object before the write, overwriting any
caller-placed timestamp; the mutation is threaded back to the caller as
the sess component of the result (the code mutates the object in place,
so the caller binding observes it after the call), and on success the
persisted document is that very mutated object. -/
theorem c10_set_mutates (st : ESStore) (idx : Index) (sid : String) (sess : Sess)
    (now : Int) (e : Option String) :
    (ESStore.set st idx sid sess now e).sess.timestamp = some now ∧
    (ESStore.set st idx sid sess now e).sess.data = sess.data ∧
    (ESStore.set st idx sid sess now e).sess = { sess with timestamp := some now } ∧
    (e = none →
      alookup (ESStore.set st idx sid sess now e).idx (ESStore.pSid st sid) =
        some (ESStore.set st idx sid sess now e).sess) := by
  cases e with
  | none =>
      refine ⟨rfl, rfl, rfl, fun _ => ?_⟩
      exact alookup_aset_self idx (ESStore.pSid st sid) { sess with timestamp := some now }
  | some err0 => exact ⟨rfl, rfl, rfl, fun h => by cases h⟩

/-- C10 witness: a caller-placed timestamp of 999 is overwritten with the
call time 77 and the overwritten object is what gets persisted. -/
theorem c10_witness :
    (ESStore.set stA [] "d" sessPre 77 none).sess.timestamp = some 77 ∧
    alookup (ESStore.set stA [] "d" sessPre 77 none).idx (ESStore.pSid stA "d") =
      some (ESStore.set stA [] "d" sessPre 77 none).sess :=
  ⟨(c10_set_mutates stA [] "d" sessPre 77 none).1,
   (c10_set_mutates stA [] "d" sessPre 77 none).2.2.2 rfl⟩

/-- C4 counterexample: the claim says destroy cancels any pending expiry
timer for the id before removing the record, but ESStore.prototype.destroy
never touches the timer machinery: after scheduling a timer for "a" and
then destroying "a" with a successful delete, the timer is still armed
(and will still fire later, issuing a second destroy). -/
theorem c4_counterexample :
    (ESStore.destroy (ESStore.sessionTimeout stA "a" 0) [("a", sessU)] "a"
        none).store.armed =
      [{ id := 0, key := "a", sid := "a", fireAt := 1000 }] ∧
    alookup (ESStore.destroy (ESStore.sessionTimeout stA "a" 0) [("a", sessU)] "a"
        none).store.timeouts "a" = some 0 := by
  exact ⟨rfl, rfl⟩

/-- C4 amended: destroy removes the record under the prefixed key (an
idempotent delete whose outcome, success or failure, is what the callback
receives), but it does not cancel any pending expiry timer: the timer
state is returned unchanged, so a previously scheduled timer for the id
remains armed and will still fire, issuing a second destroy of the same
key. -/
theorem c4_destroy_no_cancel (st : ESStore) (idx : Index) (sid : String)
    (e : Option String) :
    (ESStore.destroy st idx sid e).store = st ∧
    (ESStore.destroy st idx sid e).cbErr = e ∧
    (e = none → (ESStore.destroy st idx sid e).idx = aerase idx (ESStore.pSid st sid)) ∧
    (∀ err, e = some err → (ESStore.destroy st idx sid e).idx = idx) := by
  cases e with
  | none =>
      refine ⟨rfl, rfl, fun _ => rfl, ?_⟩
      intro err h
      simp at h
  | some err0 =>
      refine ⟨rfl, rfl, ?_, ?_⟩
      · intro h
        simp at h
      · intro err h
        rfl

/-- C4 witness: concrete instances of the amended destroy behaviour on a
successful and on a failing delete. -/
theorem c4_witness :
    (ESStore.destroy stA [("b", sessU)] "b" none).idx =
      aerase [("b", sessU)] (ESStore.pSid stA "b") ∧
    (ESStore.destroy stA [("b", sessU)] "b" (some "boom")).idx = [("b", sessU)] :=
  ⟨(c4_destroy_no_cancel stA [("b", sessU)] "b" none).2.2.1 rfl,
   (c4_destroy_no_cancel stA [("b", sessU)] "b" (some "boom")).2.2.2 "boom" rfl⟩

/-- C7 (code bug): the claim says a recovery scan failure is logged and
otherwise non-fatal with no throw, but when the search reports an error
the client passes an undefined response, and after console.error the
callback unconditionally reads r.hits, throwing a TypeError. Evaluated at
the failing input (e = connection error, r = undefined). -/
theorem c7_scan_error_throws :
    ESStore.initialSessionTimeout stA (some "ConnectionError") none 0 =
      Except.error "TypeError: Cannot read hits of undefined" := rfl

/-- C8: set followed by get within a delta strictly below TTL, with the
write succeeding and no intervening destroy or expiry, reports exactly the
caller payload as stamped by set: the reported record is P with its
timestamp field set to the write time, so its payload fields equal those
of P. -/
theorem c8_set_get_roundtrip (st : ESStore) (idx : Index) (sid : String)
    (P : Sess) (t1 t2 : Int) (h : t2 - t1 < st.options.ttl) :
    ESStore.get st (ESStore.set st idx sid P t1 none).idx sid t2 none =
      { err := none, res := some { P with timestamp := some t1 } } ∧
    ({ P with timestamp := some t1 } : Sess).data = P.data := by
  constructor
  · show (match alookup (aset idx (ESStore.pSid st sid) { P with timestamp := some t1 })
        (ESStore.pSid st sid) with
      | none => getCallback st.options.ttl t2 (some "NotFound") none
      | some src => getCallback st.options.ttl t2 none (some src)) = _
    rw [alookup_aset_self]
    have hexp : jsExpired t2 st.options.ttl (some t1) = false := by
      simp only [jsExpired, decide_eq_false_iff_not]
      omega
    simp [getCallback, hexp]
  · rfl

/-- C8 witness: the spec scenario with ttl 1000, a set at t = 0 and a get
at t = 500. -/
theorem c8_witness :
    ESStore.get stA (ESStore.set stA [] "abc" sessU 0 none).idx "abc" 500 none =
      { err := none, res := some { sessU with timestamp := some 0 } } :=
  (c8_set_get_roundtrip stA [] "abc" sessU 0 500 (by decide)).1

/-- C9 counterexample: the claim says a fired timer removes its own entry
from the key-to-timer mapping, but the setTimeout callback in
sessionTimeout only calls self.destroy(sid): after the timer armed for
key "a" fires, this.timeouts still holds the entry for "a". -/
theorem c9_counterexample :
    alookup (fireTimer (ESStore.sessionTimeout stA "a" 0) [("a", sessU)] 0
        none).store.timeouts "a" = some 0 := rfl

/-- C9 amended: when an armed timer fires it leaves the armed set and
invokes the destroy action for the sid captured by its closure (deleting
the prefixed key), but it does not remove its entry from the key-to-timer
mapping, which may therefore keep entries for keys whose timer has
already fired. -/
theorem c9_fire_keeps_mapping_entry (st : ESStore) (idx : Index) (tid : Nat)
    (tm : TimerObj) (e : Option String)
    (h : st.armed.find? (fun x => x.id == tid) = some tm) :
    (fireTimer st idx tid e).store.timeouts = st.timeouts ∧
    (fireTimer st idx tid e).store.armed = st.armed.filter (fun x => x.id != tid) ∧
    (e = none → (fireTimer st idx tid e).idx = aerase idx (ESStore.pSid st tm.sid)) := by
  unfold fireTimer
  rw [h]
  cases e with
  | none =>
      refine ⟨rfl, rfl, fun _ => rfl⟩
  | some err0 =>
      refine ⟨rfl, rfl, ?_⟩
      intro hh
      simp at hh

/-- C9 witness: the amended fire behaviour at the concrete armed state
stB. -/
theorem c9_witness :
    (fireTimer stB [("b", sessU)] 0 none).store.timeouts = stB.timeouts ∧
    (fireTimer stB [("b", sessU)] 0 none).idx =
      aerase [("b", sessU)] (ESStore.pSid stB tmB.sid) := by
  have h := c9_fire_keeps_mapping_entry stB [("b", sessU)] 0 tmB none (by decide)
  exact ⟨h.1, h.2.2 rfl⟩

/-- C3: under the reachable-state invariant, at most one armed timer
exists per storage key, sessionTimeout (the only scheduling path, called
by touch and by the recovery scan) preserves the invariant because it
first clears the existing handle for the key, and two rapid reschedules
of the same sid leave exactly one armed timer for that key, whose fire
time derives from the later call. -/
theorem c3_at_most_one_timer (st : ESStore) (h : TimerInv st) (sid : String)
    (t1 t2 : Int) :
    (∀ k, (timersFor st k).length ≤ 1) ∧
    TimerInv (ESStore.sessionTimeout st sid t1) ∧
    timersFor (ESStore.sessionTimeout (ESStore.sessionTimeout st sid t1) sid t2)
        (ESStore.pSid st sid) =
      [{ id := st.nextTimerId + 1, key := ESStore.pSid st sid, sid := sid,
         fireAt := t2 + st.options.ttl }] := by
  have hinv1 := sessionTimeout_TimerInv st h sid t1
  refine ⟨atMostOne_of_TimerInv st h, hinv1, ?_⟩
  exact sessionTimeout_timersFor (ESStore.sessionTimeout st sid t1) hinv1 sid t2

/-- C3 witness: two reschedules of "a" at t = 0 and t = 300 with ttl 1000
leave exactly the timer armed for 1300. -/
theorem c3_witness :
    timersFor (ESStore.sessionTimeout (ESStore.sessionTimeout stA "a" 0) "a" 300)
        (ESStore.pSid stA "a") =
      [{ id := stA.nextTimerId + 1, key := ESStore.pSid stA "a", sid := "a",
         fireAt := 300 + stA.options.ttl }] :=
  (c3_at_most_one_timer stA (TimerInv_initStore optsA) "a" 0 300).2.2

/-- C5: touch reschedules the local expiry timer for the full TTL
unconditionally and before the remote call: the resulting timer state is
exactly sessionTimeout of the pre-state, independent of the remote
outcome, and the key then holds a single armed timer for now + ttl. The
remote step is a targeted partial update that rewrites only the
cookie.expires sub-field of the stored document to now + originalMaxAge,
leaving payload, timestamp and originalMaxAge untouched; the callback
receives the outcome of that remote update. -/
theorem c5_touch_behavior (st : ESStore) (h : TimerInv st) (idx : Index)
    (sid : String) (sess : Sess) (now : Int) (e : Option String) :
    (ESStore.touch st idx sid sess now e).store = ESStore.sessionTimeout st sid now ∧
    timersFor (ESStore.touch st idx sid sess now e).store (ESStore.pSid st sid) =
      [{ id := st.nextTimerId, key := ESStore.pSid st sid, sid := sid,
         fireAt := now + st.options.ttl }] ∧
    (∀ doc c, e = none → alookup idx (ESStore.pSid st sid) = some doc →
      doc.cookie = some c →
      (ESStore.touch st idx sid sess now e).idx =
        aset idx (ESStore.pSid st sid)
          { doc with cookie := some { c with expires := some (now + c.originalMaxAge) } } ∧
      (ESStore.touch st idx sid sess now e).cbErr = none) ∧
    (∀ err, e = some err → (ESStore.touch st idx sid sess now e).cbErr = some err ∧
      (ESStore.touch st idx sid sess now e).idx = idx) := by
  refine ⟨rfl, ?_, ?_, ?_⟩
  · exact sessionTimeout_timersFor st h sid now
  · intro doc c he halk hcook
    subst he
    unfold ESStore.touch
    simp [halk, runUpdateScript, hcook]
  · intro err he
    subst he
    exact ⟨rfl, rfl⟩

/-- C5 witness: touching the stored document sessC at t = 900 installs
the timer for 1900 and rewrites its cookie.expires to 900 + 900. -/
theorem c5_witness :
    (ESStore.touch stA [("c", sessC)] "c" sessC 900 none).idx =
      aset [("c", sessC)] (ESStore.pSid stA "c")
        { sessC with
          cookie := some { cookie0 with expires := some (900 + cookie0.originalMaxAge) } } ∧
    (ESStore.touch stA [("c", sessC)] "c" sessC 900 none).cbErr = none :=
  (c5_touch_behavior stA (TimerInv_initStore optsA) [("c", sessC)] "c" sessC 900
    none).2.2.1 sessC cookie0 rfl (by decide) rfl

/-- C6 (code bug): the recovery scan passes each hit._id, which is
already the full prefixed storage key, back through sessionTimeout, which
prefixes it again. With the non-empty prefix "p" and a pre-existing
record at storage key "pa", the timer is registered under "ppa", no timer
exists under the record key "pa", and when the timer fires its destroy
deletes document id "ppa", leaving the pre-existing record in place, so
its fire action does not destroy that same record as the claim states. -/
theorem c6_recovery_wrong_key :
    ESStore.initialSessionTimeout stP none (some { hitsHits := some ["pa"] }) 0 =
      Except.ok stRec ∧
    alookup stRec.timeouts "ppa" = some 0 ∧
    alookup stRec.timeouts "pa" = none ∧
    (fireTimer stRec [("pa", sessU)] 0 none).idx = [("pa", sessU)] := by
  exact ⟨rfl, rfl, rfl, rfl⟩
